import Mathlib

/-!
Shallow embedding of the chat-overlay client of `nrrd_twitch_bot`
(`plugins/chat_overlay/templates/overlay.js`, rendered with both the
`badges_option` and `pronoun_option` template flags set to `'True'`, which is
the variant containing every feature the specification describes; the
`static/overlay.js` variant is the same code without the template guards).

The DOM is modelled as a tree of elements rooted at the overlay container
(`id = "chat_overlay"`).  JavaScript exceptions (`TypeError` from dereferencing
`null`/`undefined`, `SyntaxError` from `JSON.parse`, rejected `fetch` promises)
are modelled with an explicit error type; each effectful function returns the
state it has produced so far together with an `Except` result, matching the
fact that a thrown JavaScript exception does not roll back earlier mutations.
`await`ed network calls are resolved immediately from a response oracle in the
environment, which is the synchronous-scheduler reading of the page's event
loop.
-/

namespace ChatOverlay

/-- A DOM element: tag name, `id` attribute, `className`, other attributes
(only `src`/`style` are ever set by the source), text content (covering both
text nodes and `innerHTML` assignments of plain text), and child elements. -/
inductive Elem where
  | mk (tag : String) (id : String) (className : String)
       (attrs : List (String × String)) (text : String)
       (children : List Elem)
deriving Repr

def Elem.tag : Elem → String
  | .mk t _ _ _ _ _ => t

def Elem.id : Elem → String
  | .mk _ i _ _ _ _ => i

def Elem.className : Elem → String
  | .mk _ _ c _ _ _ => c

def Elem.attrs : Elem → List (String × String)
  | .mk _ _ _ a _ _ => a

def Elem.text : Elem → String
  | .mk _ _ _ _ x _ => x

def Elem.children : Elem → List Elem
  | .mk _ _ _ _ _ cs => cs

/-- Split a character list at spaces (the separator the source's `className`
strings use). -/
def splitOnSpace : List Char → List (List Char)
  | [] => [[]]
  | c :: rest =>
    match splitOnSpace rest with
    | [] => [[]]
    | g :: gs => if c = ' ' then [] :: g :: gs else (c :: g) :: gs

/-- The class tokens of a `className` string. -/
def classList (s : String) : List String :=
  (splitOnSpace s.data).map String.mk

/-- `classList` membership: `getElementsByClassName(c)` matches an element iff
`c` is one of its space-separated class tokens (and `c` is non-empty). -/
def hasClass (e : Elem) (c : String) : Bool :=
  c ≠ "" && (classList e.className).contains c

mutual

/-- First element of the tree, in document (pre-)order and including the root,
satisfying `p`. -/
def findElem (p : Elem → Bool) : Elem → Option Elem
  | .mk t i c a x cs =>
    if p (.mk t i c a x cs) then some (.mk t i c a x cs)
    else findForest p cs

/-- First element of a forest, in document order, satisfying `p`. -/
def findForest (p : Elem → Bool) : List Elem → Option Elem
  | [] => none
  | e :: es =>
    match findElem p e with
    | some r => some r
    | none => findForest p es

end

mutual

/-- All elements of the tree (root included), in document order,
satisfying `p`. -/
def collectElem (p : Elem → Bool) : Elem → List Elem
  | .mk t i c a x cs =>
    if p (.mk t i c a x cs) then (.mk t i c a x cs) :: collectForest p cs
    else collectForest p cs

/-- All elements of a forest, in document order, satisfying `p`. -/
def collectForest (p : Elem → Bool) : List Elem → List Elem
  | [] => []
  | e :: es => collectElem p e ++ collectForest p es

end

mutual

/-- Apply `f` to the first element (document order, root included) satisfying
`p`; the boolean reports whether a match was found. -/
def updFirstElem (p : Elem → Bool) (f : Elem → Elem) : Elem → Elem × Bool
  | .mk t i c a x cs =>
    if p (.mk t i c a x cs) then (f (.mk t i c a x cs), true)
    else
      match updFirstForest p f cs with
      | (cs', b) => (.mk t i c a x cs', b)

/-- Apply `f` to the first element of a forest satisfying `p`. -/
def updFirstForest (p : Elem → Bool) (f : Elem → Elem) :
    List Elem → List Elem × Bool
  | [] => ([], false)
  | e :: es =>
    match updFirstElem p f e with
    | (e', true) => (e' :: es, true)
    | (e', false) =>
      match updFirstForest p f es with
      | (es', b) => (e' :: es', b)

end

mutual

/-- Remove from the subtrees below the root every element satisfying `p`
(the while-loop over a live `getElementsByClassName` collection removes each
matching element from its parent, so a removed element takes its whole subtree
with it). -/
def removeAllElem (p : Elem → Bool) : Elem → Elem
  | .mk t i c a x cs => .mk t i c a x (removeAllForest p cs)

/-- Remove every element of a forest satisfying `p`, recursing into the
survivors. -/
def removeAllForest (p : Elem → Bool) : List Elem → List Elem
  | [] => []
  | e :: es =>
    if p e then removeAllForest p es
    else removeAllElem p e :: removeAllForest p es

end

/-- `document.getElementById`: first element with the given id, document
order. -/
def getElementById (doc : Elem) (i : String) : Option Elem :=
  findElem (fun e => e.id == i) doc

/-- `el.innerHTML = ""`: drop all children and text content of the first
element carrying the given id. -/
def clearInnerById (doc : Elem) (i : String) : Elem :=
  (updFirstElem (fun e => e.id == i)
    (fun e => .mk e.tag e.id e.className e.attrs "" []) doc).1

/-- Drop the first list entry satisfying `p`; `none` when nothing matches. -/
def removeFirstWith (p : Elem → Bool) : List Elem → Option (List Elem)
  | [] => none
  | e :: es => if p e then some es else (removeFirstWith p es).map (e :: ·)

/-- Remove the first direct child of the root carrying class `c`; `none` when
no such child exists. -/
def removeFirstTopByClass (doc : Elem) (c : String) : Option Elem :=
  (removeFirstWith (fun e => hasClass e c) doc.children).map
    (fun cs => .mk doc.tag doc.id doc.className doc.attrs doc.text cs)

/-- `el.appendChild(child)` on the first element carrying the given id. -/
def appendChildById (doc : Elem) (i : String) (child : Elem) : Elem :=
  (updFirstElem (fun e => e.id == i)
    (fun e => .mk e.tag e.id e.className e.attrs e.text (e.children ++ [child]))
    doc).1

/-! ## Errors, events and state -/

/-- JavaScript exceptions the embedded code can raise: `typeError` for a
property access on `null`/`undefined`, `parseError` for `JSON.parse` throwing
or `resp.json()` rejecting, `fetchError` for a rejected `fetch` promise. -/
inductive JsError where
  | typeError
  | parseError
  | fetchError
deriving DecidableEq, Repr

/-- The parsed JSON object of one inbound frame.  JavaScript objects are
dynamic; the dispatcher and handlers only ever read the fields below, so one
record with all of them (hyphenated JSON keys renamed with underscores) models
every event kind.  `msg_type` discriminates `privmsg`/`clearchat`/`clearmsg`. -/
structure ChatMsg where
  msg_type : String
  id : String
  display_name : String
  color : String
  msg_text : String
  badges : List String
  nickname : String
  username : String
  target_user_id : String
  target_msg_id : String
deriving DecidableEq, Repr

/-- One entry of the `user_pronouns` cache:
`{'cache_time': Date.now(), 'pronouns': text}`. -/
structure CacheEntry where
  cache_time : Nat
  pronouns : String
deriving DecidableEq, Repr

/-- JavaScript object assignment `obj[k] = v` on an insertion-ordered map:
overwrite in place if the key exists, otherwise append. -/
def insertAssoc {β : Type} (m : List (String × β)) (k : String) (v : β) :
    List (String × β) :=
  match m with
  | [] => [(k, v)]
  | (k', v') :: rest =>
    if k' = k then (k, v) :: rest else (k', v') :: insertAssoc rest k v

/-- One record of a JSON array returned by the pronouns service; the
`pronouns` endpoint uses `name`/`display`, the `users/<login>` endpoint uses
`pronoun_id` (`none` models a missing/null property). -/
structure JRecord where
  name : String
  display : String
  pronoun_id : Option String
deriving DecidableEq, Repr

/-- A parsed JSON response body: an array of records, or any non-array
value (`Array.isArray` is the only shape test the source performs). -/
inductive JValue where
  | arr (items : List JRecord)
  | other
deriving DecidableEq, Repr

/-- Outcome of one `fetch` round-trip before the source inspects it. -/
inductive FetchResult where
  | fetchRejected
  | bodyNotJson
  | json (v : JValue)
deriving DecidableEq, Repr

/-- `get(endpoint)` = `fetch(...).then(resp => resp.json(), null)`.
The second argument of `.then` is `null`, which is not a function, so a
rejected `fetch` (and a rejected `resp.json()`) passes through unhandled. -/
def get (r : FetchResult) : Except JsError JValue :=
  match r with
  | .fetchRejected => .error .fetchError
  | .bodyNotJson => .error .parseError
  | .json v => .ok v

/-- Mutable page state: the DOM rooted at the overlay container, the two
global caches, and (for the call-counting laws) how many times each external
endpoint has been hit. -/
structure St where
  doc : Elem
  pronouns_lookup : List (String × String)
  user_pronouns : List (String × CacheEntry)
  pronounsCalls : Nat
  userCalls : Nat
deriving Repr

/-- Environment of one handler invocation: response oracles for the two
endpoints (indexed by how many calls have gone before, so distinct calls may
answer differently), the current clock (`Date.now()`), and the overlay's
`getBoundingClientRect().y`. -/
structure Env where
  pronounsApi : Nat → FetchResult
  usersApi : String → Nat → FetchResult
  now : Nat
  rectY : Int

/-- The overlay container holding the given children. -/
def overlayWith (es : List Elem) : Elem := .mk "div" "chat_overlay" "" [] "" es

/-- The overlay container as the hosting page provides it. -/
def overlayRoot : Elem := overlayWith []

/-- Page state at client start-up: empty overlay, empty caches. -/
def init_st : St :=
  { doc := overlayRoot, pronouns_lookup := [], user_pronouns := [],
    pronounsCalls := 0, userCalls := 0 }

/-! ## Enrichment cache (`pronoun_option == 'True'` block) -/

/-- `build_pronoun_lookup()`: one `get('pronouns')` call; if the response is
an array, fold its `(name, display)` pairs into `pronouns_lookup`; any other
shape leaves the table untouched; a rejected call propagates. -/
def build_pronoun_lookup (env : Env) (st : St) : St × Except JsError Unit :=
  let r := env.pronounsApi st.pronounsCalls
  let st1 := { st with pronounsCalls := st.pronounsCalls + 1 }
  match get r with
  | .error e => (st1, .error e)
  | .ok (.arr items) =>
    let tbl :=
      items.foldl (fun tbl it => insertAssoc tbl it.name it.display)
        st1.pronouns_lookup
    ({ st1 with pronouns_lookup := tbl }, .ok ())
  | .ok .other => (st1, .ok ())

/-- The straight-line tail of `lookup_user_pronouns` after the table-build
step: one `get('users/<login>')` call, whose result yields a `pronoun_id`
exactly when it is a singleton array (anything else means no pronoun), then
resolution through the table, defaulting to the empty string. -/
def lookup_user_tail (env : Env) (user_login : String) (st1 : St) :
    St × Except JsError String :=
  let r := env.usersApi user_login st1.userCalls
  let st2 := { st1 with userCalls := st1.userCalls + 1 }
  match get r with
  | .error e => (st2, .error e)
  | .ok data =>
    let pronoun_id : Option String :=
      match data with
      | .arr [item] => item.pronoun_id
      | _ => none
    match pronoun_id with
    | some pid =>
      match st2.pronouns_lookup.lookup pid with
      | some disp => (st2, .ok disp)
      | none => (st2, .ok "")
    | none => (st2, .ok "")

/-- `lookup_user_pronouns(user_login)`: build the lookup table first if it is
empty (a failure of that `await` propagates), then run the per-user lookup
tail. -/
def lookup_user_pronouns (env : Env) (user_login : String) (st : St) :
    St × Except JsError String :=
  if st.pronouns_lookup.length = 0 then
    match build_pronoun_lookup env st with
    | (st1, .error e) => (st1, .error e)
    | (st1, .ok ()) => lookup_user_tail env user_login st1
  else
    lookup_user_tail env user_login st

/-- `add_user_pronoun_cache(chat_msg)`: resolve and store
`{cache_time: Date.now(), pronouns}` under the author's login. -/
def add_user_pronoun_cache (env : Env) (chat_msg : ChatMsg) (st : St) :
    St × Except JsError Unit :=
  let user_login := chat_msg.nickname
  match lookup_user_pronouns env user_login st with
  | (st1, .error e) => (st1, .error e)
  | (st1, .ok pronouns) =>
    let cache := insertAssoc st1.user_pronouns user_login ⟨env.now, pronouns⟩
    ({ st1 with user_pronouns := cache }, .ok ())

/-- `update_user_pronoun_cache(chat_msg)`: re-resolve and overwrite the
existing entry's fields in place (field assignment on a missing entry would
dereference `undefined`). -/
def update_user_pronoun_cache (env : Env) (chat_msg : ChatMsg) (st : St) :
    St × Except JsError Unit :=
  let user_login := chat_msg.nickname
  match lookup_user_pronouns env user_login st with
  | (st1, .error e) => (st1, .error e)
  | (st1, .ok pronouns) =>
    match st1.user_pronouns.lookup user_login with
    | none => (st1, .error .typeError)
    | some _ =>
      let cache := insertAssoc st1.user_pronouns user_login ⟨env.now, pronouns⟩
      ({ st1 with user_pronouns := cache }, .ok ())

/-- `check_cache_time(user_login)`: fresh iff
`Date.now() <= cache_time + 500000`; reading `['cache_time']` of a missing
entry throws. -/
def check_cache_time (env : Env) (user_login : String) (st : St) :
    Except JsError Bool :=
  match st.user_pronouns.lookup user_login with
  | none => .error .typeError
  | some entry => .ok (decide (env.now ≤ entry.cache_time + 500000))

/-- `write_pronouns(chat_msg)`: read the cached text, locate the message block
by id (`null` if absent), take its first `pronoun_tag` descendant (`undefined`
if none), and assign its `innerHTML`. -/
def write_pronouns (chat_msg : ChatMsg) (st : St) : St × Except JsError Unit :=
  match st.user_pronouns.lookup chat_msg.nickname with
  | none => (st, .error .typeError)
  | some entry =>
    match getElementById st.doc chat_msg.id with
    | none => (st, .error .typeError)
    | some msg_block =>
      if (collectForest (fun e => hasClass e "pronoun_tag")
            msg_block.children).isEmpty then
        (st, .error .typeError)
      else
        let doc1 :=
          (updFirstElem (fun e => e.id == chat_msg.id)
            (fun blk =>
              .mk blk.tag blk.id blk.className blk.attrs blk.text
                (updFirstForest (fun e => hasClass e "pronoun_tag")
                  (fun pb => .mk pb.tag pb.id pb.className pb.attrs
                    entry.pronouns pb.children)
                  blk.children).1)
            st.doc).1
        ({ st with doc := doc1 }, .ok ())

/-- `add_pronouns(chat_msg)`: fresh cache hit writes the stored text; a stale
hit refreshes the entry first; a miss populates it first. -/
def add_pronouns (env : Env) (chat_msg : ChatMsg) (st : St) :
    St × Except JsError Unit :=
  if (st.user_pronouns.lookup chat_msg.nickname).isSome then
    match check_cache_time env chat_msg.nickname st with
    | .error e => (st, .error e)
    | .ok true => write_pronouns chat_msg st
    | .ok false =>
      match update_user_pronoun_cache env chat_msg st with
      | (st1, .error e) => (st1, .error e)
      | (st1, .ok ()) => write_pronouns chat_msg st1
  else
    match add_user_pronoun_cache env chat_msg st with
    | (st1, .error e) => (st1, .error e)
    | (st1, .ok ()) => write_pronouns chat_msg st1

/-! ## Render engine -/

/-- Whether the first character list starts with the second. -/
def startsWithChars : List Char → List Char → Bool
  | _, [] => true
  | [], _ :: _ => false
  | c :: cs, d :: ds => c == d && startsWithChars cs ds

/-- Whether `pat` occurs as a contiguous run of the character list. -/
def occursIn (pat : List Char) : List Char → Bool
  | [] => pat.isEmpty
  | c :: cs => startsWithChars (c :: cs) pat || occursIn pat cs

/-- JavaScript `s.includes(sub)`. -/
def jsIncludes (s sub : String) : Bool :=
  occursIn sub.data s.data

/-- JavaScript `s.slice(7, -1)`: drop the first 7 and the last 1 characters
(empty when fewer than 8 remain, exactly as `slice` clamps). -/
def jsSlice7Neg1 (s : String) : String :=
  String.mk ((s.data.drop 7).dropLast)

/-- The badge strip: one `img` per badge URL, order preserved. -/
def badges_div (chat_msg : ChatMsg) : Elem :=
  .mk "div" "" "chat_badges" [] ""
    (chat_msg.badges.map (fun badge_url =>
      .mk "img" "" "" [("src", badge_url)] "" []))

/-- The coloured display-name paragraph. -/
def name_p (chat_msg : ChatMsg) : Elem :=
  .mk "p" "" "display_name" [("style", "color:" ++ chat_msg.color)]
    chat_msg.display_name []

/-- The empty pronoun placeholder, filled in later by `write_pronouns`. -/
def pronoun_p : Elem := .mk "p" "" "pronoun_tag" [] "" []

/-- The name block: display name plus pronoun placeholder. -/
def name_div (chat_msg : ChatMsg) : Elem :=
  .mk "div" "" "display_name" [] "" [name_p chat_msg, pronoun_p]

/-- The message body paragraph: a text containing `'ACTION'` anywhere is
sliced with `slice(7, -1)` and given the `slash_me` class; any other text is
rendered verbatim with the plain class. -/
def text_p (chat_msg : ChatMsg) : Elem :=
  if jsIncludes chat_msg.msg_text "ACTION" then
    .mk "p" "" "msg_text slash_me" [] (jsSlice7Neg1 chat_msg.msg_text) []
  else
    .mk "p" "" "msg_text" [] chat_msg.msg_text []

/-- The body block wrapping `text_p`. -/
def text_div (chat_msg : ChatMsg) : Elem :=
  .mk "div" "" "msg_text" [] "" [text_p chat_msg]

/-- The whole message subtree built by `add_chat_msg`: `id` is the event's
message id and the class tokens are `chat_message` and that same id. -/
def msg_div (chat_msg : ChatMsg) : Elem :=
  .mk "div" chat_msg.id ("chat_message " ++ chat_msg.id) [] ""
    [badges_div chat_msg, name_div chat_msg, text_div chat_msg]

/-- `add_chat_msg(chat_msg)`: build the message subtree and append it as the
last child of the overlay container. -/
def add_chat_msg (chat_msg : ChatMsg) (st : St) : St × Except JsError Unit :=
  match getElementById st.doc "chat_overlay" with
  | none => (st, .error .typeError)
  | some _ =>
    ({ st with doc := appendChildById st.doc "chat_overlay" (msg_div chat_msg) },
     .ok ())

/-- `clear_out_of_bounds()`: when the overlay's bounding rectangle has a
negative `y`, remove `getElementsByClassName("chat_message")[0]` from the
overlay.  Every `chat_message` element is a direct child of the overlay, so
this is the first such child; with no such child the source dereferences
`undefined` (or `removeChild` throws), an error either way. -/
def clear_out_of_bounds (env : Env) (st : St) : St × Except JsError Unit :=
  if env.rectY < 0 then
    match removeFirstTopByClass st.doc "chat_message" with
    | some doc1 => ({ st with doc := doc1 }, .ok ())
    | none => (st, .error .typeError)
  else
    (st, .ok ())

/-- `delete_chat_messages(chat_msg)`: an empty `username` clears the whole
overlay (`innerHTML = ""`); otherwise the while-loop removes every element in
the document whose class list contains `chat_msg['target-user-id']`. -/
def delete_chat_messages (chat_msg : ChatMsg) (st : St) :
    St × Except JsError Unit :=
  if chat_msg.username = "" then
    match getElementById st.doc "chat_overlay" with
    | none => (st, .error .typeError)
    | some _ => ({ st with doc := clearInnerById st.doc "chat_overlay" }, .ok ())
  else
    ({ st with doc :=
        removeAllElem (fun e => hasClass e chat_msg.target_user_id) st.doc },
     .ok ())

/-- `delete_individual_message(chat_msg)`: empty the contents of the element
whose id is `chat_msg['target-msg-id']`; when no such element exists,
`getElementById` yields `null` and the `innerHTML` assignment throws. -/
def delete_individual_message (chat_msg : ChatMsg) (st : St) :
    St × Except JsError Unit :=
  match getElementById st.doc chat_msg.target_msg_id with
  | none => (st, .error .typeError)
  | some _ =>
    ({ st with doc := clearInnerById st.doc chat_msg.target_msg_id }, .ok ())

/-! ## Message dispatcher -/

/-- One inbound text frame: either a payload `JSON.parse` rejects, or one it
parses to an event record. -/
inductive Frame where
  | malformed (raw : String)
  | parsed (chat_msg : ChatMsg)
deriving DecidableEq, Repr

/-- `msg_handler(msg)`: parse the frame (`JSON.parse` throws on a malformed
payload, before any handler runs) and route on `msg_type`; unknown
discriminators fall through the `switch`.  `add_pronouns` is `async` and
invoked without `await`, so its failure becomes an unhandled promise
rejection: its state effects stay, but `msg_handler` proceeds to
`clear_out_of_bounds` regardless. -/
def msg_handler (env : Env) (frame : Frame) (st : St) :
    St × Except JsError Unit :=
  match frame with
  | .malformed _ => (st, .error .parseError)
  | .parsed chat_msg =>
    match chat_msg.msg_type with
    | "privmsg" =>
      match add_chat_msg chat_msg st with
      | (st1, .error e) => (st1, .error e)
      | (st1, .ok ()) =>
        let st2 := (add_pronouns env chat_msg st1).1
        clear_out_of_bounds env st2
    | "clearchat" => delete_chat_messages chat_msg st
    | "clearmsg" => delete_individual_message chat_msg st
    | _ => (st, .ok ())

/-! ## Observables used by the theorems -/

/-- Whether an id still resolves in the document. -/
def resolvableById (doc : Elem) (i : String) : Bool :=
  (getElementById doc i).isSome

/-- Number of children of the element an id resolves to. -/
def childCountById (doc : Elem) (i : String) : Option Nat :=
  (getElementById doc i).map (fun e => e.children.length)

/-- Text of the first `pronoun_tag` descendant of the message block with the
given id (`none` when the block or the placeholder is missing). -/
def pronounTagText (doc : Elem) (i : String) : Option String :=
  (getElementById doc i).bind (fun blk =>
    ((collectForest (fun e => hasClass e "pronoun_tag") blk.children).head?).map
      Elem.text)

/-- Whether the message block with the given id exists and still holds its
pronoun placeholder, which is what `write_pronouns` needs to succeed. -/
def hasPronounSlot (doc : Elem) (i : String) : Bool :=
  (pronounTagText doc i).isSome

/-- Render a whole sequence of `post` events in arrival order. -/
def renderAll (msgs : List ChatMsg) (st : St) : St :=
  msgs.foldl (fun s m => (add_chat_msg m s).1) st

/-! ## Connection manager -/

/-- The `close` event a socket delivers to its `onclose` handler. -/
structure CloseEvent where
  wasClean : Bool
  code : Nat
  reason : String
deriving DecidableEq, Repr

/-- What the `onclose` handler installed by `connect()` does. -/
inductive CloseAction where
  | logOnly
  | scheduleNewConnect (delayMs : Nat)
deriving DecidableEq, Repr

/-- Whether a close handler outcome schedules another `connect()` call. -/
def CloseAction.retries : CloseAction → Bool
  | .logOnly => false
  | .scheduleNewConnect _ => true

/-- The `onclose` handler of `connect()`: a clean close only logs; a dirty
close logs and schedules `connect()` again after 5000 ms.  Every connection
made by `connect()` installs this same handler, so the policy repeats on each
subsequent close. -/
def socket_onclose (event : CloseEvent) : CloseAction :=
  if event.wasClean then .logOnly else .scheduleNewConnect 5000

/-! ## Frame lemmas about the enrichment cache -/

/-- The per-user lookup tail bumps `userCalls` and touches no other state. -/
theorem lookup_user_tail_fst (env : Env) (l : String) (s : St) :
    (lookup_user_tail env l s).1 = { s with userCalls := s.userCalls + 1 } := by
  unfold lookup_user_tail
  dsimp only
  repeat' split
  all_goals rfl

/-- `build_pronoun_lookup` bumps `pronounsCalls`, possibly rewrites the
lookup table, and touches nothing else. -/
theorem build_pronoun_lookup_fst_frame (env : Env) (st : St) :
    (build_pronoun_lookup env st).1.doc = st.doc ∧
    (build_pronoun_lookup env st).1.user_pronouns = st.user_pronouns ∧
    (build_pronoun_lookup env st).1.pronounsCalls = st.pronounsCalls + 1 ∧
    (build_pronoun_lookup env st).1.userCalls = st.userCalls := by
  unfold build_pronoun_lookup
  dsimp only
  repeat' split
  all_goals exact ⟨rfl, rfl, rfl, rfl⟩

/-- `lookup_user_pronouns` never touches the DOM or the per-user cache. -/
theorem lookup_user_pronouns_frame (env : Env) (l : String) (st : St) :
    (lookup_user_pronouns env l st).1.doc = st.doc ∧
    (lookup_user_pronouns env l st).1.user_pronouns = st.user_pronouns := by
  unfold lookup_user_pronouns
  split
  · split
    · rename_i st1 e heq
      have hb := build_pronoun_lookup_fst_frame env st
      rw [heq] at hb
      exact ⟨hb.1, hb.2.1⟩
    · rename_i st1 heq
      have hb := build_pronoun_lookup_fst_frame env st
      rw [heq] at hb
      rw [lookup_user_tail_fst]
      exact ⟨hb.1, hb.2.1⟩
  · rw [lookup_user_tail_fst]
    exact ⟨rfl, rfl⟩

/-- A `lookup_user_pronouns` that returns a value performed exactly one
per-user call. -/
theorem lookup_user_pronouns_ok_userCalls (env : Env) (l : String)
    (st stL : St) (txt : String)
    (hlk : lookup_user_pronouns env l st = (stL, .ok txt)) :
    stL.userCalls = st.userCalls + 1 := by
  unfold lookup_user_pronouns at hlk
  split at hlk
  · split at hlk
    · exact absurd (congrArg Prod.snd hlk) (by simp)
    · rename_i st1 heq
      have hb := build_pronoun_lookup_fst_frame env st
      rw [heq] at hb
      have h1 : (lookup_user_tail env l st1).1 = stL := by rw [hlk]
      rw [lookup_user_tail_fst] at h1
      have h2 := congrArg St.userCalls h1
      simp only [St.userCalls] at h2
      rw [← h2, hb.2.2.2]
  · have h1 : (lookup_user_tail env l st).1 = stL := by rw [hlk]
    rw [lookup_user_tail_fst] at h1
    exact (congrArg St.userCalls h1).symm

/-! ## Fixtures -/

/-- A representative `post` event. -/
def sample_msg : ChatMsg :=
  { msg_type := "privmsg", id := "msg1", display_name := "Alice",
    color := "#ff0000", msg_text := "hello", badges := [], nickname := "alice",
    username := "", target_user_id := "", target_msg_id := "" }

/-- A second `post` event from a different author. -/
def other_msg : ChatMsg :=
  { msg_type := "privmsg", id := "msg2", display_name := "Bob",
    color := "#00ff00", msg_text := "hi", badges := ["https://b.example/1"],
    nickname := "bob", username := "", target_user_id := "", target_msg_id := "" }

/-- A `clearmsg` event targeting the given message id. -/
def clearmsg_event (target : String) : ChatMsg :=
  { msg_type := "clearmsg", id := "", display_name := "", color := "",
    msg_text := "", badges := [], nickname := "", username := "",
    target_user_id := "", target_msg_id := target }

/-- A `clearchat` event (empty `username` requests a full clear). -/
def clearchat_event (username target : String) : ChatMsg :=
  { msg_type := "clearchat", id := "", display_name := "", color := "",
    msg_text := "", badges := [], nickname := "", username := username,
    target_user_id := target, target_msg_id := "" }

/-- Page state with `sample_msg` rendered. -/
def st_one : St := renderAll [sample_msg] init_st

/-- Environment whose `pronouns` endpoint rejects (network failure). -/
def env_rejecting : Env :=
  { pronounsApi := fun _ => .fetchRejected,
    usersApi := fun _ _ => .json (.arr []), now := 0, rectY := 0 }

/-- Environment whose `pronouns` endpoint answers with a non-array body. -/
def env_not_list : Env :=
  { pronounsApi := fun _ => .json .other,
    usersApi := fun _ _ => .json (.arr [⟨"", "", some "hehim"⟩]),
    now := 0, rectY := 0 }

/-! ## C1 -/

/-- C1: a `clearmsg` for a displayed message id empties that subtree in place:
the node stays resolvable by id and childless.  But a `clearmsg` for an id not
in the DOM is not the claimed silent no-op: `getElementById` yields `null` and
the `innerHTML` assignment throws a `TypeError` (the DOM itself is untouched
only because the throw precedes any mutation). -/
theorem clearmsg_empties_but_throws_on_unknown_id :
    (delete_individual_message (clearmsg_event "msg1") st_one).2 = .ok () ∧
    resolvableById
      (delete_individual_message (clearmsg_event "msg1") st_one).1.doc "msg1"
      = true ∧
    childCountById
      (delete_individual_message (clearmsg_event "msg1") st_one).1.doc "msg1"
      = some 0 ∧
    (delete_individual_message (clearmsg_event "gone") st_one).2
      = .error .typeError ∧
    (delete_individual_message (clearmsg_event "gone") st_one).1 = st_one := by
  refine ⟨rfl, by decide, by decide, rfl, rfl⟩

/-! ## C2 -/

/-- Class tokens occurring strictly below the root of a rendered message
subtree, for any `post` event (the root itself carries `chat_message` and the
event's message id). -/
def innerClassTokens : List String :=
  ["chat_badges", "display_name", "pronoun_tag", "msg_text", "slash_me"]

/-- Rendering a sequence of posts appends their subtrees, in order, to the
overlay's children. -/
theorem renderAll_doc (msgs : List ChatMsg) (st : St) (cs : List Elem)
    (h : st.doc = Elem.mk "div" "chat_overlay" "" [] "" cs) :
    (renderAll msgs st).doc
      = Elem.mk "div" "chat_overlay" "" [] "" (cs ++ msgs.map msg_div) := by
  induction msgs generalizing st cs with
  | nil => simpa [renderAll] using h
  | cons m ms ih =>
    have hstep : ((add_chat_msg m st).1).doc
        = Elem.mk "div" "chat_overlay" "" [] "" (cs ++ [msg_div m]) := by
      simp [add_chat_msg, getElementById, h, findElem, appendChildById,
        updFirstElem, Elem.id, Elem.tag, Elem.className, Elem.attrs, Elem.text,
        Elem.children]
    have := ih ((add_chat_msg m st).1) (cs ++ [msg_div m]) hstep
    simpa [renderAll, List.foldl_cons] using this

/-- Unfold `hasClass` on an explicit element. -/
theorem hasClass_mk (t i c : String) (a : List (String × String)) (x : String)
    (cs : List Elem) (uid : String) :
    hasClass (Elem.mk t i c a x cs) uid
      = (decide (uid ≠ "") && (classList c).contains uid) := rfl

/-- The class tokens of the `className` strings the renderer emits. -/
theorem classList_chat_badges : classList "chat_badges" = ["chat_badges"] := rfl

/-- Tokens of the name block's class string. -/
theorem classList_display_name :
    classList "display_name" = ["display_name"] := rfl

/-- Tokens of the placeholder's class string. -/
theorem classList_pronoun_tag : classList "pronoun_tag" = ["pronoun_tag"] := rfl

/-- Tokens of the plain body class string. -/
theorem classList_msg_text : classList "msg_text" = ["msg_text"] := rfl

/-- Tokens of the action body class string. -/
theorem classList_slash_me :
    classList "msg_text slash_me" = ["msg_text", "slash_me"] := rfl

/-- Tokens of an empty class string. -/
theorem classList_empty : classList "" = [""] := rfl

/-- A class token outside `innerClassTokens` matches no element strictly
below a rendered message's root, so `clearchat` removal leaves a surviving
message subtree intact. -/
theorem removeAllElem_msg_div (uid : String) (m : ChatMsg)
    (huid : uid ∉ innerClassTokens) :
    removeAllElem (fun e => hasClass e uid) (msg_div m) = msg_div m := by
  simp only [innerClassTokens, List.mem_cons, List.not_mem_nil, or_false] at huid
  push_neg at huid
  obtain ⟨hb, hd, hp, hm, hs⟩ := huid
  have s1 : classList "chat_badges" = ["chat_badges"] := rfl
  have s2 : classList "display_name" = ["display_name"] := rfl
  have s3 : classList "pronoun_tag" = ["pronoun_tag"] := rfl
  have s4 : classList "msg_text" = ["msg_text"] := rfl
  have s5 : classList "msg_text slash_me" = ["msg_text", "slash_me"] := rfl
  have s0 : classList "" = [""] := rfl
  have himgs : removeAllForest (fun e => hasClass e uid)
      (m.badges.map (fun u => Elem.mk "img" "" "" [("src", u)] "" []))
      = m.badges.map (fun u => Elem.mk "img" "" "" [("src", u)] "" []) := by
    induction m.badges with
    | nil => rfl
    | cons u us ih =>
      simp [removeAllForest, removeAllElem, hasClass_mk, s0, ih]
  by_cases hA : jsIncludes m.msg_text "ACTION" = true <;>
    simp [msg_div, badges_div, name_div, name_p, pronoun_p, text_div, text_p,
      hA, removeAllElem, removeAllForest, hasClass_mk, s1, s2, s3, s4, s5,
      hb, hd, hp, hm, hs, himgs]

/-- `clearchat` removal over the rendered forest is exactly a filter by the
class tag, preserving the order of the survivors. -/
theorem removeAllForest_msg_divs (uid : String) (msgs : List ChatMsg)
    (huid : uid ∉ innerClassTokens) :
    removeAllForest (fun e => hasClass e uid) (msgs.map msg_div)
      = (msgs.map msg_div).filter (fun d => !hasClass d uid) := by
  induction msgs with
  | nil => rfl
  | cons m ms ih =>
    by_cases hm : hasClass (msg_div m) uid
    · simp [removeAllForest, List.filter_cons, hm, ih]
    · simp [removeAllForest, List.filter_cons, hm, ih,
        removeAllElem_msg_div uid m huid]

/-- C2: after rendering any sequence of posts, a `clearchat` with an empty
`username` removes every child of the overlay container, while a `clearchat`
with a non-empty `username` removes exactly the rendered message subtrees
whose class tag matches the event's `target-user-id` (zero, one, or many),
leaving all other messages in their original order.  (The hypothesis only
excludes target ids colliding with the fixed inner class tokens of a message
subtree, which no real user id does.) -/
theorem clearchat_full_or_by_tag (msgs : List ChatMsg) (ev : ChatMsg)
    (huid : ev.target_user_id ∉ innerClassTokens) :
    (ev.username = "" →
      (delete_chat_messages ev (renderAll msgs init_st)).2 = .ok () ∧
      (delete_chat_messages ev (renderAll msgs init_st)).1.doc.children
        = []) ∧
    (ev.username ≠ "" →
      (delete_chat_messages ev (renderAll msgs init_st)).2 = .ok () ∧
      (delete_chat_messages ev (renderAll msgs init_st)).1.doc.children
        = (msgs.map msg_div).filter
            (fun d => !hasClass d ev.target_user_id)) := by
  have hdoc := renderAll_doc msgs init_st [] rfl
  constructor
  · intro hu
    constructor
    · simp [delete_chat_messages, hu, hdoc, getElementById, findElem, Elem.id]
    · simp [delete_chat_messages, hu, hdoc, getElementById, findElem,
        clearInnerById, updFirstElem, Elem.id, Elem.tag, Elem.className,
        Elem.attrs, Elem.children]
  · intro hu
    constructor
    · simp [delete_chat_messages, hu]
    · simp [delete_chat_messages, hu, hdoc, removeAllElem, Elem.children,
        removeAllForest_msg_divs ev.target_user_id msgs huid]

/-- Witness for C2: two rendered messages; a full clear empties the overlay,
and a targeted clear for the tag `"msg2"` removes exactly Bob's subtree. -/
theorem clearchat_full_or_by_tag_witness :
    ((delete_chat_messages (clearchat_event "" "")
        (renderAll [sample_msg, other_msg] init_st)).1.doc.children = []) ∧
    ((delete_chat_messages (clearchat_event "ban" "msg2")
        (renderAll [sample_msg, other_msg] init_st)).1.doc.children
      = ([sample_msg, other_msg].map msg_div).filter
          (fun d => !hasClass d (clearchat_event "ban" "msg2").target_user_id)) := by
  have h1 := (clearchat_full_or_by_tag [sample_msg, other_msg]
    (clearchat_event "" "") (by decide)).1 rfl
  have h2 := (clearchat_full_or_by_tag [sample_msg, other_msg]
    (clearchat_event "ban" "msg2") (by decide)).2 (by decide)
  exact ⟨h1.2, h2.2⟩

/-! ## C3 -/

/-- C3: for a frame whose payload is not valid JSON, `JSON.parse` throws
before any handler runs, so `msg_handler` leaves all state (in particular the
DOM) unchanged both on the first and on the second dispatch of the same frame
— but contrary to the claim it does raise the parse exception, both times,
since the parse is not wrapped in any try/catch. -/
theorem msg_handler_malformed_frame_raises (env : Env) (raw : String) (st : St) :
    msg_handler env (.malformed raw) st = (st, .error .parseError) ∧
    msg_handler env (.malformed raw)
        (msg_handler env (.malformed raw) st).1 = (st, .error .parseError) :=
  ⟨rfl, rfl⟩

/-! ## C4 -/

/-- C4 counterexample: a clean close (`wasClean = true`, here with the normal
closure code 1000) only logs — `connect()`'s `onclose` handler schedules no
new connection attempt, refuting the claim that every close, clean or dirty,
triggers the retry. -/
theorem clean_close_schedules_no_retry :
    (socket_onclose ⟨true, 1000, "done"⟩).retries = false := by
  decide

/-- C4 amended: only a dirty close schedules a new `connect()` call (after the
fixed 5000 ms delay); a clean close logs and schedules nothing.  Dirty closes
retry without bound: every event of any sequence of dirty closes schedules a
fresh attempt, with no retry counter and no terminal failed state. -/
theorem onclose_retry_policy (e : CloseEvent) (evs : List CloseEvent)
    (hdirty : ∀ ev ∈ evs, ev.wasClean = false) :
    (e.wasClean = false → socket_onclose e = .scheduleNewConnect 5000) ∧
    (e.wasClean = true → socket_onclose e = .logOnly) ∧
    evs.map socket_onclose = evs.map (fun _ => .scheduleNewConnect 5000) := by
  refine ⟨fun h => by simp [socket_onclose, h],
          fun h => by simp [socket_onclose, h], ?_⟩
  induction evs with
  | nil => rfl
  | cons a as ih =>
    have ha := hdirty a (List.mem_cons_self a as)
    have hrest : ∀ ev ∈ as, ev.wasClean = false :=
      fun ev hm => hdirty ev (List.mem_cons_of_mem a hm)
    simp [socket_onclose, ha, ih hrest]

/-- Witness for C4: three consecutive dirty closes each schedule a reconnect
after 5000 ms. -/
theorem onclose_retry_policy_witness :
    socket_onclose ⟨false, 1006, ""⟩ = .scheduleNewConnect 5000 ∧
    ([⟨false, 1006, ""⟩, ⟨false, 1006, ""⟩, ⟨false, 1006, ""⟩] :
        List CloseEvent).map socket_onclose
      = [.scheduleNewConnect 5000, .scheduleNewConnect 5000,
         .scheduleNewConnect 5000] := by
  have h := onclose_retry_policy ⟨false, 1006, ""⟩
    [⟨false, 1006, ""⟩, ⟨false, 1006, ""⟩, ⟨false, 1006, ""⟩] (by decide)
  exact ⟨h.1 rfl, by simpa using h.2.2⟩

/-! ## C5 -/

/-- Page state where an enrichment for `alice` resolved while her message was
removed from the overlay (scrolled off or cleared) before the write ran. -/
def st_cached_msg_gone : St :=
  { init_st with user_pronouns := [("alice", ⟨0, "He/Him"⟩)] }

/-- C5: when the target message subtree is gone before the enrichment's write
runs, `write_pronouns` is not the claimed silent no-op: `getElementById`
yields `null` and the following property access throws a `TypeError` (state is
unchanged only because the throw precedes any mutation). -/
theorem write_pronouns_throws_when_message_gone :
    (write_pronouns sample_msg st_cached_msg_gone).2 = .error .typeError ∧
    (write_pronouns sample_msg st_cached_msg_gone).1 = st_cached_msg_gone := by
  refine ⟨rfl, rfl⟩

/-! ## C7 -/

/-- The pronoun placeholder after `write_pronouns` filled it with `txt`. -/
def pronoun_p_with (txt : String) : Elem :=
  .mk "p" "" "pronoun_tag" [] txt []

/-- The name block of a rendered message after its placeholder was filled. -/
def name_div_written (chat_msg : ChatMsg) (txt : String) : Elem :=
  .mk "div" "" "display_name" [] "" [name_p chat_msg, pronoun_p_with txt]

/-- A rendered message subtree after its placeholder was filled. -/
def msg_div_written (chat_msg : ChatMsg) (txt : String) : Elem :=
  .mk "div" chat_msg.id ("chat_message " ++ chat_msg.id) [] ""
    [badges_div chat_msg, name_div_written chat_msg txt, text_div chat_msg]

/-- `obj[k] = v` makes `obj[k]` read back `v`. -/
theorem insertAssoc_lookup_self {β : Type} (l : List (String × β)) (k : String)
    (v : β) : (insertAssoc l k v).lookup k = some v := by
  induction l with
  | nil => simp [insertAssoc, List.lookup]
  | cons p ps ih =>
    obtain ⟨k', v'⟩ := p
    by_cases hk : k' = k
    · simp [insertAssoc, hk, List.lookup]
    · have hbe : (k == k') = false := beq_eq_false_iff_ne.mpr (Ne.symm hk)
      simp [insertAssoc, hk, List.lookup, hbe, ih]

/-- Overwriting an existing key leaves the key sequence — hence entry
positions — unchanged. -/
theorem insertAssoc_keys {β : Type} (l : List (String × β)) (k : String)
    (v : β) (h : (l.lookup k).isSome) :
    (insertAssoc l k v).map Prod.fst = l.map Prod.fst := by
  induction l with
  | nil => simp [List.lookup] at h
  | cons p ps ih =>
    obtain ⟨k', v'⟩ := p
    by_cases hk : k' = k
    · simp [insertAssoc, hk]
    · have hbe : (k == k') = false := beq_eq_false_iff_ne.mpr (Ne.symm hk)
      have h' : (ps.lookup k).isSome := by
        simpa [List.lookup, hbe] using h
      simp [insertAssoc, hk, ih h']

/-- On a page whose overlay holds the rendered message, with a cache entry
present for the author, `write_pronouns` succeeds and replaces exactly the
placeholder's text with the entry's stored text. -/
theorem write_pronouns_ok (m : ChatMsg) (st : St) (e : CacheEntry)
    (hmem : st.user_pronouns.lookup m.nickname = some e)
    (hdoc : st.doc = overlayWith [msg_div m])
    (hid : m.id ≠ "chat_overlay") :
    write_pronouns m st
      = ({ st with doc := overlayWith [msg_div_written m e.pronouns] },
         .ok ()) := by
  have hne : (("chat_overlay" : String) == m.id) = false :=
    beq_eq_false_iff_ne.mpr (Ne.symm hid)
  have hcolImgs : collectForest (fun e2 => hasClass e2 "pronoun_tag")
      (m.badges.map (fun u => Elem.mk "img" "" "" [("src", u)] "" [])) = [] := by
    induction m.badges with
    | nil => rfl
    | cons u us ih =>
      simp +decide [collectForest, collectElem, hasClass_mk, classList_empty,
        ih]
  have hupdImgs : ∀ f : Elem → Elem,
      updFirstForest (fun e2 => hasClass e2 "pronoun_tag") f
        (m.badges.map (fun u => Elem.mk "img" "" "" [("src", u)] "" []))
      = (m.badges.map (fun u => Elem.mk "img" "" "" [("src", u)] "" []),
         false) := by
    intro f
    induction m.badges with
    | nil => rfl
    | cons u us ih =>
      simp +decide [updFirstForest, updFirstElem, hasClass_mk, classList_empty,
        ih]
  by_cases hA : jsIncludes m.msg_text "ACTION" = true <;>
    simp +decide [write_pronouns, hmem, hdoc, overlayWith, getElementById,
      findElem, findForest, collectForest, collectElem, updFirstElem,
      updFirstForest, msg_div, msg_div_written, badges_div, name_div,
      name_div_written, name_p, pronoun_p, pronoun_p_with, text_div, text_p,
      hA, Elem.id, Elem.tag, Elem.className, Elem.attrs, Elem.text,
      Elem.children, hasClass_mk, classList_chat_badges, classList_display_name,
      classList_pronoun_tag, classList_msg_text, classList_slash_me,
      classList_empty, hne, hcolImgs, hupdImgs]

/-- Resolving the written page: the placeholder of the message block reads
back the written text. -/
theorem pronounTagText_written (m : ChatMsg) (txt : String)
    (hid : m.id ≠ "chat_overlay") :
    pronounTagText (overlayWith [msg_div_written m txt]) m.id = some txt := by
  have hne : (("chat_overlay" : String) == m.id) = false :=
    beq_eq_false_iff_ne.mpr (Ne.symm hid)
  have hcolImgs : collectForest (fun e2 => hasClass e2 "pronoun_tag")
      (m.badges.map (fun u => Elem.mk "img" "" "" [("src", u)] "" [])) = [] := by
    induction m.badges with
    | nil => rfl
    | cons u us ih =>
      simp +decide [collectForest, collectElem, hasClass_mk, classList_empty,
        ih]
  by_cases hA : jsIncludes m.msg_text "ACTION" = true <;>
    simp +decide [pronounTagText, overlayWith, getElementById, findElem,
      findForest, collectForest, collectElem, msg_div_written, badges_div,
      name_div_written, name_p, pronoun_p_with, text_div, text_p, hA, Elem.id,
      Elem.tag, Elem.className, Elem.attrs, Elem.text, Elem.children,
      hasClass_mk, classList_chat_badges, classList_display_name,
      classList_pronoun_tag, classList_msg_text, classList_slash_me,
      classList_empty, hne, hcolImgs]

/-- C7: for an author whose login has a cache entry and whose message is on
the page: if the entry is fresher than the 500000-unit staleness window, the
enrichment is exactly `write_pronouns` of the stored text — the resulting
state differs from the input only in the filled placeholder, so both call
counters, both caches and the entry itself are untouched (zero external
calls) and the written text is the entry's stored text.  If the entry is
stale, exactly one per-user refresh call runs (`userCalls` grows by one), the
entry is overwritten in place (same key positions, same keys), its stored
timestamp strictly advances, and the freshly resolved text is written. -/
theorem add_pronouns_cache_freshness_law (env : Env) (m : ChatMsg)
    (st stL : St) (entry : CacheEntry) (txt : String)
    (hmem : st.user_pronouns.lookup m.nickname = some entry)
    (hdoc : st.doc = overlayWith [msg_div m])
    (hid : m.id ≠ "chat_overlay")
    (hlk : lookup_user_pronouns env m.nickname st = (stL, .ok txt)) :
    (env.now ≤ entry.cache_time + 500000 →
      add_pronouns env m st
        = ({ st with doc := overlayWith [msg_div_written m entry.pronouns] },
           .ok ())) ∧
    (¬ env.now ≤ entry.cache_time + 500000 →
      (add_pronouns env m st).2 = .ok () ∧
      (add_pronouns env m st).1.userCalls = st.userCalls + 1 ∧
      (add_pronouns env m st).1.user_pronouns.lookup m.nickname
        = some ⟨env.now, txt⟩ ∧
      (add_pronouns env m st).1.user_pronouns.map Prod.fst
        = st.user_pronouns.map Prod.fst ∧
      entry.cache_time < env.now ∧
      pronounTagText (add_pronouns env m st).1.doc m.id = some txt) := by
  have hisSome : (st.user_pronouns.lookup m.nickname).isSome := by
    rw [hmem]; rfl
  constructor
  · intro hfresh
    have hcheck : check_cache_time env m.nickname st = .ok true := by
      simp [check_cache_time, hmem, hfresh]
    have hstep : add_pronouns env m st = write_pronouns m st := by
      simp [add_pronouns, hisSome, hcheck]
    rw [hstep, write_pronouns_ok m st entry hmem hdoc hid]
  · intro hstale
    have hcheck : check_cache_time env m.nickname st = .ok false := by
      simp [check_cache_time, hmem, hstale]
    have hfstL : (lookup_user_pronouns env m.nickname st).1 = stL := by
      rw [hlk]
    have hframe := lookup_user_pronouns_frame env m.nickname st
    have hLdoc : stL.doc = st.doc := by rw [← hfstL]; exact hframe.1
    have hLup : stL.user_pronouns = st.user_pronouns := by
      rw [← hfstL]; exact hframe.2
    have hLcalls : stL.userCalls = st.userCalls + 1 :=
      lookup_user_pronouns_ok_userCalls env m.nickname st stL txt hlk
    have hupdate : update_user_pronoun_cache env m st
        = ({ stL with user_pronouns :=
              insertAssoc st.user_pronouns m.nickname ⟨env.now, txt⟩ },
           .ok ()) := by
      simp [update_user_pronoun_cache, hlk, hLup, hmem]
    have hstep : add_pronouns env m st
        = write_pronouns m { stL with user_pronouns := insertAssoc st.user_pronouns m.nickname ⟨env.now, txt⟩ } := by
      simp [add_pronouns, hisSome, hcheck, hupdate]
    have hmem1 : (insertAssoc st.user_pronouns m.nickname
        (⟨env.now, txt⟩ : CacheEntry)).lookup m.nickname
        = some ⟨env.now, txt⟩ := insertAssoc_lookup_self _ _ _
    have hdoc1 : ({ stL with user_pronouns := insertAssoc st.user_pronouns m.nickname ⟨env.now, txt⟩ } : St).doc
        = overlayWith [msg_div m] := by
      simpa [hLdoc] using hdoc
    have hw := write_pronouns_ok m
      { stL with user_pronouns := insertAssoc st.user_pronouns m.nickname ⟨env.now, txt⟩ }
      ⟨env.now, txt⟩ hmem1 hdoc1 hid
    rw [hstep, hw]
    refine ⟨rfl, ?_, ?_, ?_, ?_, ?_⟩
    · simpa using hLcalls
    · simpa using hmem1
    · simpa using insertAssoc_keys st.user_pronouns m.nickname
        (⟨env.now, txt⟩ : CacheEntry) (by rw [hmem]; rfl)
    · omega
    · exact pronounTagText_written m txt hid

/-- Page state with `sample_msg` rendered and a cache entry for `alice`
stored at time 0. -/
def st_cached : St :=
  { st_one with user_pronouns := [("alice", ⟨0, "He/Him"⟩)] }

/-- Environment at time 100 (inside the staleness window of `st_cached`). -/
def env_fresh : Env :=
  { pronounsApi := fun _ => .json .other,
    usersApi := fun _ _ => .json (.arr []), now := 100, rectY := 0 }

/-- Environment at time 600001 (outside the staleness window), answering both
endpoints with data resolving `alice` to `He/Him2`. -/
def env_stale : Env :=
  { pronounsApi := fun _ => .json (.arr [⟨"hehim", "He/Him2", none⟩]),
    usersApi := fun _ _ => .json (.arr [⟨"", "", some "hehim"⟩]),
    now := 600001, rectY := 0 }

/-- State after the fresh-path lookup of the witness (call counters bumped by
the instantiating lookup, nothing else changed). -/
def stL_fresh : St := { st_cached with pronounsCalls := 1, userCalls := 1 }

/-- State after the stale-path lookup of the witness (table populated, call
counters bumped). -/
def stL_stale : St :=
  { doc := st_cached.doc, pronouns_lookup := [("hehim", "He/Him2")],
    user_pronouns := st_cached.user_pronouns, pronounsCalls := 1,
    userCalls := 1 }

/-- Witness for C7: the fresh path writes the stored text with no external
call, the stale path re-resolves once, overwrites, and advances the
timestamp. -/
theorem add_pronouns_cache_freshness_law_witness :
    ((add_pronouns env_fresh sample_msg st_cached).2 = .ok () ∧
     (add_pronouns env_fresh sample_msg st_cached).1.userCalls
       = st_cached.userCalls ∧
     (add_pronouns env_fresh sample_msg st_cached).1.pronounsCalls
       = st_cached.pronounsCalls ∧
     pronounTagText (add_pronouns env_fresh sample_msg st_cached).1.doc "msg1"
       = some "He/Him") ∧
    ((add_pronouns env_stale sample_msg st_cached).2 = .ok () ∧
     (add_pronouns env_stale sample_msg st_cached).1.userCalls
       = st_cached.userCalls + 1 ∧
     (add_pronouns env_stale sample_msg st_cached).1.user_pronouns.lookup
       "alice" = some ⟨600001, "He/Him2"⟩ ∧
     pronounTagText (add_pronouns env_stale sample_msg st_cached).1.doc "msg1"
       = some "He/Him2") := by
  have hf := (add_pronouns_cache_freshness_law env_fresh sample_msg st_cached
    stL_fresh ⟨0, "He/Him"⟩ "" rfl rfl (by decide) rfl).1 (by decide)
  have hs2 := (add_pronouns_cache_freshness_law env_stale sample_msg st_cached
    stL_stale ⟨0, "He/Him"⟩ "He/Him2" rfl rfl (by decide) rfl).2 (by decide)
  refine ⟨⟨by rw [hf], by rw [hf], by rw [hf], ?_⟩,
          ⟨hs2.1, hs2.2.1, hs2.2.2.1, hs2.2.2.2.2.2⟩⟩
  rw [hf]
  exact pronounTagText_written sample_msg "He/Him" (by decide)

/-! ## C8 -/

/-- C8: a `post` whose raw text is the action-wrapped
`"\x01ACTIONdances\x01"` (7-character prefix, 1-character suffix) renders the
body `"dances"` with the alternate `slash_me` class, and a `post` with plain
text `"hello"` renders it verbatim with the default class. -/
theorem action_text_transform (m m' : ChatMsg)
    (h : m.msg_text = "\x01ACTIONdances\x01") (h' : m'.msg_text = "hello") :
    (text_p m).text = "dances" ∧
    (text_p m).className = "msg_text slash_me" ∧
    (text_p m').text = "hello" ∧
    (text_p m').className = "msg_text" := by
  simp only [text_p, h, h']
  decide

/-- Witness for C8 at two concrete `post` events. -/
theorem action_text_transform_witness :
    (text_p { sample_msg with msg_text := "\x01ACTIONdances\x01" }).text
      = "dances" ∧
    (text_p { sample_msg with msg_text := "\x01ACTIONdances\x01" }).className
      = "msg_text slash_me" ∧
    (text_p sample_msg).text = "hello" ∧
    (text_p sample_msg).className = "msg_text" :=
  action_text_transform { sample_msg with msg_text := "\x01ACTIONdances\x01" }
    sample_msg rfl rfl

/-! ## C10 -/

/-- C10: the action transform is keyed on `includes('ACTION')` alone, so any
raw text containing `"ACTION"` anywhere — wrapper or not — is rendered with
the `slash_me` class and with its first 7 and last 1 characters removed. -/
theorem action_marker_anywhere_truncates (m : ChatMsg)
    (h : jsIncludes m.msg_text "ACTION" = true) :
    (text_p m).className = "msg_text slash_me" ∧
    (text_p m).text = String.mk ((m.msg_text.data.drop 7).dropLast) := by
  simp [text_p, h, jsSlice7Neg1, Elem.className, Elem.text]

/-- Witness for C10: the ordinary message `"ACTION movie tonight"`, which
merely mentions ACTION, is restyled and truncated to `"movie tonigh"`. -/
theorem action_marker_anywhere_truncates_witness :
    (text_p { sample_msg with msg_text := "ACTION movie tonight" }).className
      = "msg_text slash_me" ∧
    (text_p { sample_msg with msg_text := "ACTION movie tonight" }).text
      = "movie tonigh" := by
  have h := action_marker_anywhere_truncates
    { sample_msg with msg_text := "ACTION movie tonight" } (by decide)
  exact ⟨h.1, h.2.trans (by decide)⟩

/-! ## C6 -/

/-- C6: the unexpected-shape half of the claim holds — a non-array full-table
response leaves `pronouns_lookup` empty and resolution proceeds to the empty
string — and a lookup failure never blocks rendering, because `add_pronouns`
is not awaited (the `privmsg` frame still renders its message and the handler
returns normally).  But a rejected request does not degrade: `get`'s
`.then(resp => resp.json(), null)` passes the rejection through (its
`onRejected` argument is `null`, not a function), so the whole enrichment
chain rejects with the fetch error instead of yielding an empty result. -/
theorem pronoun_lookup_failure_behaviour :
    (lookup_user_pronouns env_not_list "alice" init_st).2 = .ok "" ∧
    (lookup_user_pronouns env_not_list "alice" init_st).1.pronouns_lookup
      = [] ∧
    get .fetchRejected = .error .fetchError ∧
    (lookup_user_pronouns env_rejecting "alice" init_st).2
      = .error .fetchError ∧
    (msg_handler env_rejecting (.parsed sample_msg) init_st).2 = .ok () ∧
    (msg_handler env_rejecting (.parsed sample_msg) init_st).1.doc.children.map
        Elem.id = ["msg1"] := by
  refine ⟨rfl, by decide, rfl, rfl, rfl, by decide⟩

/-! ## C9 -/

/-- C9 counterexample: with the service answering the full-table call with a
non-array body both times, two enrichment resolutions in one session perform
the external full-table call twice, refuting "at most one time per session". -/
theorem full_table_call_repeats_while_table_empty :
    ((lookup_user_pronouns env_not_list "bob"
        (lookup_user_pronouns env_not_list "alice" init_st).1).1.pronounsCalls)
      = 2 := by
  decide

/-- C9 amended: the full-table call is guarded only by the table being empty.
A resolution starting from a non-empty table performs no full-table call and
leaves the table unchanged (so once a response has populated it, every later
resolution reuses it); but a resolution starting from an empty table always
performs exactly one full-table call, so failed or empty responses make the
call repeat. -/
theorem pronoun_table_reused_once_populated (env : Env) (login : String)
    (st st' : St) (h : st.pronouns_lookup ≠ [])
    (h' : st'.pronouns_lookup = []) :
    (lookup_user_pronouns env login st).1.pronouns_lookup
      = st.pronouns_lookup ∧
    (lookup_user_pronouns env login st).1.pronounsCalls = st.pronounsCalls ∧
    (lookup_user_pronouns env login st').1.pronounsCalls
      = st'.pronounsCalls + 1 := by
  have hlen : ¬ st.pronouns_lookup.length = 0 := by
    simpa using h
  have hlen' : st'.pronouns_lookup.length = 0 := by
    simp [h']
  refine ⟨?_, ?_, ?_⟩
  · unfold lookup_user_pronouns
    rw [if_neg hlen, lookup_user_tail_fst]
  · unfold lookup_user_pronouns
    rw [if_neg hlen, lookup_user_tail_fst]
  · unfold lookup_user_pronouns
    rw [if_pos hlen']
    split
    · rename_i st1 e heq
      have hb := build_pronoun_lookup_fst_frame env st'
      rw [heq] at hb
      exact hb.2.2.1
    · rename_i st1 heq
      have hb := build_pronoun_lookup_fst_frame env st'
      rw [heq] at hb
      rw [lookup_user_tail_fst]
      exact hb.2.2.1

/-- Witness for C9: a populated table (one pair) is reused with no further
full-table call, while the empty initial table triggers exactly one. -/
theorem pronoun_table_reused_once_populated_witness :
    (lookup_user_pronouns env_not_list "alice"
        { init_st with pronouns_lookup := [("hehim", "He/Him")] }
      ).1.pronouns_lookup = [("hehim", "He/Him")] ∧
    (lookup_user_pronouns env_not_list "alice"
        { init_st with pronouns_lookup := [("hehim", "He/Him")] }
      ).1.pronounsCalls = 0 ∧
    (lookup_user_pronouns env_not_list "alice" init_st).1.pronounsCalls
      = 0 + 1 := by
  have h := pronoun_table_reused_once_populated env_not_list "alice"
    { init_st with pronouns_lookup := [("hehim", "He/Him")] } init_st
    (by decide) rfl
  exact h

end ChatOverlay
